import Mathlib

/-!
Shallow embedding of `prow/pubsub/subscriber/subscriber.go`: the pub/sub
event-to-job resolution pipeline (periodic / presubmit / postsubmit job
handlers), the cluster-admission and dispatch step (`handleProwJob`), and the
message entry point (`handleMessage`).

Go maps (`map[string]string`) are modelled as association lists whose keys are
distinct, observed only through lookup (`mapGet`) and assignment (`mapInsert`).
Go errors are modelled as `Except String`.  External collaborators that are not
part of the repository source (the `pjutil` spec constructors, the
`config.Presubmit.CouldRun` branch matcher, the git client, the reporter and
the prow-job creation client) are modelled as opaque data carried by the
structures, as documented on each field.
-/

namespace PubSub

/-- Association-list view of a Go `map[string]string`. -/
abbrev Labels := List (String × String)

/-- Go map lookup `m[k]`: the value of the first binding of `k`, if any. -/
def mapGet (m : Labels) (k : String) : Option String :=
  (m.find? (fun p => p.1 == k)).map Prod.snd

/-- Go map assignment `m[k] = v`: binds `k` to `v`, replacing any previous
binding of `k`; observable only through `mapGet`. -/
def mapInsert (m : Labels) (k v : String) : Labels :=
  (k, v) :: m.filter (fun p => !(p.1 == k))

/-- One element of `Refs.Pulls` (`k8s.io/test-infra/prow/apis/prowjobs/v1`);
only the head SHA is consulted by the subscriber. -/
structure Pull where
  sha : String
deriving DecidableEq

/-- The fields of `v1.Refs` read by the subscriber. -/
structure Refs where
  org : String
  repo : String
  baseRef : String
  baseSHA : String
  pulls : List Pull
deriving DecidableEq

/-- `ProwJobEvent` (subscriber.go): the decoded pub/sub payload. -/
structure ProwJobEvent where
  name : String
  refs : Option Refs
  envs : Labels
  labels : Labels
  annotations : Labels
deriving DecidableEq

/-- `coreapi.EnvVar`: one container environment entry. -/
structure EnvVar where
  name : String
  value : String
deriving DecidableEq

/-- A container of the pod template; only its `Env` list is touched. -/
structure Container where
  env : List EnvVar
deriving DecidableEq

/-- The pod template (`coreapi.PodSpec`); only `Containers` is touched. -/
structure PodSpec where
  containers : List Container
deriving DecidableEq

/-- The fields of `v1.ProwJobSpec` the subscriber reads or writes:
the target cluster and the pod template. -/
structure ProwJobSpec where
  cluster : String
  podSpec : Option PodSpec
deriving DecidableEq

/-- The Go zero value `prowapi.ProwJobSpec\x7b\x7d` used for the failure
report when resolution fails. -/
def emptyProwJobSpec : ProwJobSpec :=
  { cluster := "", podSpec := none }

/-- `config.Periodic` as consumed by the periodic handler: its name, its
labels (`nil`-able Go map, hence `Option`), and its job spec. -/
structure Periodic where
  name : String
  labels : Option Labels
  /-- Modelled from the spec: stands for `pjutil.PeriodicSpec` applied to this
  job definition (`prow/pjutil` is not under src/). -/
  spec : ProwJobSpec
deriving DecidableEq

/-- `config.Presubmit` as consumed by the presubmit handler. -/
structure Presubmit where
  name : String
  labels : Option Labels
  /-- Modelled from the spec: stands for `config.Presubmit.CouldRun`, the
  branch-pattern matcher (`prow/config` job types are not under src/). -/
  couldRun : String → Bool
  /-- Modelled from the spec: stands for `pjutil.PresubmitSpec` applied to
  this job definition and the event refs (`prow/pjutil` is not under src/). -/
  specFor : Refs → ProwJobSpec

/-- `config.Postsubmit` as consumed by the postsubmit handler. -/
structure Postsubmit where
  name : String
  labels : Option Labels
  /-- Modelled from the spec: stands for `config.Postsubmit.CouldRun`, the
  branch-pattern matcher (`prow/config` job types are not under src/). -/
  couldRun : String → Bool
  /-- Modelled from the spec: stands for `pjutil.PostsubmitSpec` applied to
  this job definition and the event refs (`prow/pjutil` is not under src/). -/
  specFor : Refs → ProwJobSpec

/-- The `prowCfgClient` interface (subscriber.go): the static catalogs plus
the dynamic (inrepoconfig) fetchers.  The dynamic fetchers receive the
`org/repo` identifier, the base SHA and (for presubmits) the head SHAs, the
values produced by the getter closures built in the handlers. -/
structure ProwCfgClient where
  allPeriodics : List Periodic
  getPresubmitsStatic : String → List Presubmit
  getPresubmits : String → String → List String → Except String (List Presubmit)
  getPostsubmitsStatic : String → List Postsubmit
  getPostsubmits : String → String → Except String (List Postsubmit)

/-- `orgRepo := org + "/" + repo` (subscriber.go). -/
def orgRepoOf (refs : Refs) : String :=
  refs.org ++ "/" ++ refs.repo

/-- `periodicJobHandler.getProwJobSpec`: scan `cfg.AllPeriodics()` for the
first job whose name equals the event name (the loop breaks on the first
match); absence is the not-found error. -/
def periodicGetProwJobSpec (cfg : ProwCfgClient) (pe : ProwJobEvent) :
    Except String (ProwJobSpec × Option Labels) :=
  match cfg.allPeriodics.find? (fun job => job.name == pe.name) with
  | some job => .ok (job.spec, job.labels)
  | none => .error ("failed to find associated periodic job \"" ++ pe.name ++ "\"")

/-- The selection loop shared by the presubmit and postsubmit handlers:
iterate over the candidates, skip jobs whose branch patterns do not match
(`CouldRun`), and among same-named jobs keep exactly one — a second match is
the ambiguity error, no match at the end is the not-found error (whose text
names the job kind).  `found` is the `presubmitJob` / `postsubmitJob`
accumulator pointer of the Go loop. -/
def scanForJob (peName branch kind : String) (getName : α → String)
    (cr : α → String → Bool) : List α → Option α → Except String α
  | [], none =>
      .error ("failed to find associated " ++ kind ++ " job \"" ++ peName ++ "\"")
  | [], some j => .ok j
  | job :: rest, found =>
      if cr job branch then
        if getName job == peName then
          match found with
          | some _ => .error (peName ++ " matches multiple prow jobs")
          | none => scanForJob peName branch kind getName cr rest (some job)
        else scanForJob peName branch kind getName cr rest found
      else scanForJob peName branch kind getName cr rest found

/-- The candidate list of the presubmit handler: the static catalog for
`org/repo`, replaced by the inrepoconfig result when a git client is
configured and the dynamic fetch succeeds; on fetch failure the error is
logged at debug level and the static list is kept. -/
def presubmitCandidates (cfg : ProwCfgClient) (hasGitClient : Bool)
    (refs : Refs) : List Presubmit :=
  let staticJobs := cfg.getPresubmitsStatic (orgRepoOf refs)
  if hasGitClient then
    match cfg.getPresubmits (orgRepoOf refs) refs.baseSHA
        (refs.pulls.map Pull.sha) with
    | .error _ => staticJobs
    | .ok dyn => dyn
  else staticJobs

/-- The candidate list of the postsubmit handler, analogous to
`presubmitCandidates` (no head SHA getters). -/
def postsubmitCandidates (cfg : ProwCfgClient) (hasGitClient : Bool)
    (refs : Refs) : List Postsubmit :=
  let staticJobs := cfg.getPostsubmitsStatic (orgRepoOf refs)
  if hasGitClient then
    match cfg.getPostsubmits (orgRepoOf refs) refs.baseSHA with
    | .error _ => staticJobs
    | .ok dyn => dyn
  else staticJobs

/-- `presubmitJobHandler.getProwJobSpec`: validate the refs (org, repo, at
least one pull, baseSHA, baseRef — in the source order), build the candidate
list, then run the selection loop. -/
def presubmitGetProwJobSpec (cfg : ProwCfgClient) (hasGitClient : Bool)
    (pe : ProwJobEvent) : Except String (ProwJobSpec × Option Labels) :=
  match pe.refs with
  | none => .error "Refs must be supplied"
  | some refs =>
    if refs.org.length == 0 then .error "org must be supplied"
    else if refs.repo.length == 0 then .error "repo must be supplied"
    else if refs.pulls.length == 0 then .error "at least 1 Pulls is required"
    else if refs.baseSHA.length == 0 then .error "baseSHA must be supplied"
    else if refs.baseRef.length == 0 then .error "baseRef must be supplied"
    else
      match scanForJob pe.name refs.baseRef "presubmit" Presubmit.name
          Presubmit.couldRun (presubmitCandidates cfg hasGitClient refs) none with
      | .error e => .error e
      | .ok job => .ok (job.specFor refs, job.labels)

/-- `postsubmitJobHandler.getProwJobSpec`: validate the refs (org, repo,
baseSHA, baseRef — `Pulls` is not checked), build the candidate list, then
run the selection loop. -/
def postsubmitGetProwJobSpec (cfg : ProwCfgClient) (hasGitClient : Bool)
    (pe : ProwJobEvent) : Except String (ProwJobSpec × Option Labels) :=
  match pe.refs with
  | none => .error "refs must be supplied"
  | some refs =>
    if refs.org.length == 0 then .error "org must be supplied"
    else if refs.repo.length == 0 then .error "repo must be supplied"
    else if refs.baseSHA.length == 0 then .error "baseSHA must be supplied"
    else if refs.baseRef.length == 0 then .error "baseRef must be supplied"
    else
      match scanForJob pe.name refs.baseRef "postsubmit" Postsubmit.name
          Postsubmit.couldRun (postsubmitCandidates cfg hasGitClient refs) none with
      | .error e => .error e
      | .ok job => .ok (job.specFor refs, job.labels)

/-- `v1.ProwJobState` values used by the subscriber. -/
inductive ProwJobState
  | triggered
  | errorState
deriving DecidableEq

/-- The status fields the subscriber writes before reporting. -/
structure ProwJobStatus where
  state : ProwJobState
  description : String
deriving DecidableEq

/-- The fields of a `prowapi.ProwJob` the subscriber constructs and the
collaborators observe. -/
structure ProwJob where
  spec : ProwJobSpec
  labels : Option Labels
  annotations : Labels
  status : ProwJobStatus
deriving DecidableEq

/-- Modelled from the spec: `pjutil.NewProwJob` (`prow/pjutil` is not under
src/) builds a job record carrying the given spec, labels and annotations
(plus a generated identifier, not modelled); its status is later overwritten
by `reportProwJob` before any report. -/
def newProwJob (spec : ProwJobSpec) (labels : Option Labels)
    (annotations : Labels) : ProwJob :=
  { spec := spec, labels := labels, annotations := annotations,
    status := { state := .triggered, description := "" } }

/-- The `reportClient` collaborator: its `ShouldReport` predicate and whether
its `Report` call fails on a given job. -/
structure Reporter where
  shouldReport : ProwJob → Bool
  reportFails : ProwJob → Bool

/-- The `ProwJobClient` collaborator: `createErr pj = some e` means
`Create` fails with error `e`. -/
structure Backend where
  createErr : ProwJob → Option String

/-- The observable side effects of one dispatch: the events handed to
`getProwJobSpec`, the job records submitted through `ProwJobClient.Create`,
every `reportProwJob` invocation (with the status already set), and the
actual `Reporter.Report` calls paired with their success. -/
structure Trace where
  resolves : List ProwJobEvent
  created : List ProwJob
  reportCalls : List ProwJob
  reported : List (ProwJob × Bool)
deriving DecidableEq

/-- The empty trace. -/
def Trace.empty : Trace :=
  { resolves := [], created := [], reportCalls := [], reported := [] }

/-- The `reportProwJob` closure of `handleProwJob`: set the job status (state
plus a description derived from the error), then, only when `ShouldReport`
holds of the updated job, call `Report`; a report error is logged and
swallowed.  Returns the report-call trace and the report trace. -/
def reportProwJob (r : Reporter) (pj : ProwJob) (state : ProwJobState)
    (err : Option String) : List ProwJob × List (ProwJob × Bool) :=
  let desc := match err with
    | none => "Successfully triggered prowjob."
    | some e => "Failed creating prowjob: " ++ e
  let pj := { pj with status := { state := state, description := desc } }
  ([pj], if r.shouldReport pj then [(pj, !(r.reportFails pj))] else [])

/-- The cluster admission loop of `handleProwJob`: the resolved cluster is
allowed when some allow-list entry is the wildcard `"*"` or equals it. -/
def clusterAllowed (allowedClusters : List String) (cluster : String) : Bool :=
  allowedClusters.any (fun allowedCluster =>
    allowedCluster == "*" || allowedCluster == cluster)

/-- The error message of the admission rejection. -/
def clusterNotAllowedMsg (cluster : String) : String :=
  "cluster " ++ cluster ++
    " is not allowed. Can be fixed by defining this cluster under pubsub_triggers -> allowed_clusters"

/-- The environment-update loop of `handleProwJob`: append every event
environment entry to the environment list of every container of the pod
template (when there is one). -/
def addEnvs (pj : ProwJob) (envs : Labels) : ProwJob :=
  match pj.spec.podSpec with
  | none => pj
  | some ps =>
      let cs := ps.containers.map (fun c =>
        { c with env := c.env ++ envs.map (fun kv => ⟨kv.1, kv.2⟩) })
      { pj with spec := { pj.spec with podSpec := some ⟨cs⟩ } }

/-- The label-merge loop of `handleProwJob`: start from the job definition's
labels (an empty map when they are `nil`) and assign every event label into
the map, so the event's value wins on key collision. -/
def mergedLabels (jobLabels : Option Labels) (eventLabels : Labels) : Labels :=
  eventLabels.foldl (fun m kv => mapInsert m kv.1 kv.2) (jobLabels.getD [])

/-- `Subscriber.handleProwJob`: decode the payload, resolve the job spec,
admit the cluster, merge labels, append environments, submit the job and
report the outcome.  `resolve` is `jh.getProwJobSpec` with the configuration
already applied; `payload` is the `json.Unmarshal` outcome of the message
data (`encoding/json` is external).  Returns the Go error result and the
side-effect trace.  (The source's `prowJobSpec == nil` check cannot fire in
this model: a successful resolution always carries a spec value.) -/
def handleProwJob (reporter : Reporter) (backend : Backend)
    (resolve : ProwJobEvent → Except String (ProwJobSpec × Option Labels))
    (payload : Except String ProwJobEvent) (allowedClusters : List String) :
    Except String Unit × Trace :=
  match payload with
  | .error e => (.error e, Trace.empty)
  | .ok pe =>
    match resolve pe with
    | .error err =>
        let prowJob := newProwJob emptyProwJobSpec none pe.annotations
        let rep := reportProwJob reporter prowJob .errorState (some err)
        (.error err,
         { resolves := [pe], created := [], reportCalls := rep.1, reported := rep.2 })
    | .ok (prowJobSpec, labels) =>
        if !(clusterAllowed allowedClusters prowJobSpec.cluster) then
          let err := clusterNotAllowedMsg prowJobSpec.cluster
          let prowJob := newProwJob prowJobSpec none pe.annotations
          let rep := reportProwJob reporter prowJob .errorState (some err)
          (.error err,
           { resolves := [pe], created := [], reportCalls := rep.1, reported := rep.2 })
        else
          let prowJob := addEnvs
            (newProwJob prowJobSpec (some (mergedLabels labels pe.labels))
              pe.annotations) pe.envs
          match backend.createErr prowJob with
          | some e =>
              let rep := reportProwJob reporter prowJob .errorState (some e)
              (.error e,
               { resolves := [pe], created := [prowJob],
                 reportCalls := rep.1, reported := rep.2 })
          | none =>
              let rep := reportProwJob reporter prowJob .triggered none
              (.ok (),
               { resolves := [pe], created := [prowJob],
                 reportCalls := rep.1, reported := rep.2 })

/-- The pub/sub attribute key naming the event type. -/
def prowEventType : String := "prow.k8s.io/pubsub.EventType"

/-- The recognized value for periodic events. -/
def periodicProwJobEvent : String := "prow.k8s.io/pubsub.PeriodicProwJobEvent"

/-- The recognized value for presubmit events. -/
def presubmitProwJobEvent : String := "prow.k8s.io/pubsub.PresubmitProwJobEvent"

/-- The recognized value for postsubmit events. -/
def postsubmitProwJobEvent : String := "prow.k8s.io/pubsub.PostsubmitProwJobEvent"

/-- `extractFromAttribute`: read a required key from the message attributes. -/
def extractFromAttribute (attrs : Labels) (key : String) : Except String String :=
  match mapGet attrs key with
  | some value => .ok value
  | none => .error ("unable to find \"" ++ key ++ "\" from the attributes")

/-- The per-subscription metric counters.  In the source, `MessageCounter`
is incremented once per received message
(`MessageCounter.With(labels).Inc()`); the three `ErrorCounter` sites build
the labelled counter (`ErrorCounter.With(labels)`) but never call `.Inc()`
on it, so the error count never changes. -/
structure Metrics where
  messageCount : Nat
  errorCount : Nat
deriving DecidableEq

/-- The `Subscriber` collaborators consulted by `handleMessage`: the
configuration, whether a git client is configured (`s.GitClient != nil`),
the reporter and the prow-job creation client. -/
structure SubscriberModel where
  cfg : ProwCfgClient
  hasGitClient : Bool
  reporter : Reporter
  backend : Backend

/-- An inbound pub/sub message: its attributes, and the `json.Unmarshal`
outcome of its data bytes (`encoding/json` is external). -/
structure Message where
  attributes : Labels
  payload : Except String ProwJobEvent

/-- `Subscriber.handleMessage`: count the message, read the event-type
attribute (absence is terminal), select the handler for the recognized type
(an unknown type is terminal), then run `handleProwJob`.  Faithful to the
source, none of the error paths increments the error counter: each calls
`ErrorCounter.With(...)` without `.Inc()`. -/
def handleMessage (s : SubscriberModel) (msg : Message)
    (subscription : String) (allowedClusters : List String) :
    Except String Unit × Trace × Metrics :=
  let m0 : Metrics := { messageCount := 1, errorCount := 0 }
  match extractFromAttribute msg.attributes prowEventType with
  | .error e => (.error e, Trace.empty, m0)
  | .ok eType =>
    if eType == periodicProwJobEvent then
      let out := handleProwJob s.reporter s.backend
        (periodicGetProwJobSpec s.cfg) msg.payload allowedClusters
      (out.1, out.2, m0)
    else if eType == presubmitProwJobEvent then
      let out := handleProwJob s.reporter s.backend
        (presubmitGetProwJobSpec s.cfg s.hasGitClient) msg.payload allowedClusters
      (out.1, out.2, m0)
    else if eType == postsubmitProwJobEvent then
      let out := handleProwJob s.reporter s.backend
        (postsubmitGetProwJobSpec s.cfg s.hasGitClient) msg.payload allowedClusters
      (out.1, out.2, m0)
    else
      (.error ("unsupported event type: " ++ eType), Trace.empty, m0)

/-! ### Helper lemmas about the Go-map model -/

/-- A non-empty string fails the `len(s) == 0` test. -/
theorem length_beq_zero_eq_false (s : String) (h : s ≠ "") :
    (s.length == 0) = false := by
  simp only [beq_eq_false_iff_ne, ne_eq]
  intro hl
  exact h (String.ext (by simpa using List.length_eq_zero.mp hl))

/-- `mapGet` on a cons: the head binding wins when its key matches. -/
theorem mapGet_cons (a : String × String) (t : Labels) (k : String) :
    mapGet (a :: t) k = if a.1 = k then some a.2 else mapGet t k := by
  by_cases h : a.1 = k
  · simp [mapGet, List.find?_cons_of_pos, h]
  · simp only [mapGet, h, if_false]
    rw [List.find?_cons_of_neg _ (by simp [h])]

/-- A key bound nowhere in the list looks up to `none`. -/
theorem mapGet_eq_none (m : Labels) (k : String)
    (h : ∀ p ∈ m, p.1 ≠ k) : mapGet m k = none := by
  unfold mapGet
  rw [List.find?_eq_none.mpr (fun p hp => by simp [h p hp])]
  rfl

/-- Lookup after Go map assignment: the assigned key reads the new value,
every other key is untouched. -/
theorem mapGet_mapInsert (m : Labels) (k v k' : String) :
    mapGet (mapInsert m k v) k' = if k' = k then some v else mapGet m k' := by
  unfold mapInsert
  rw [mapGet_cons]
  by_cases h : k' = k
  · simp [h]
  · rw [if_neg (fun hh => h hh.symm), if_neg h]
    induction m with
    | nil => rfl
    | cons a t ih =>
      by_cases ha : a.1 = k
      · have hk' : a.1 ≠ k' := fun hh => h (hh.symm.trans ha)
        rw [List.filter_cons, if_neg (by simp [ha]), ih, mapGet_cons, if_neg hk']
      · rw [List.filter_cons, if_pos (by simp [ha]), mapGet_cons, mapGet_cons, ih]

/-- Lookup in the folded label merge: the event map wins on collision,
provided the event map's keys are distinct (as Go map keys are). -/
theorem mapGet_foldl_mapInsert (evts : Labels) (base : Labels) (k : String)
    (h : (evts.map Prod.fst).Nodup) :
    mapGet (evts.foldl (fun m kv => mapInsert m kv.1 kv.2) base) k =
      (mapGet evts k).or (mapGet base k) := by
  induction evts generalizing base with
  | nil => simp [mapGet]
  | cons a t ih =>
    simp only [List.map_cons, List.nodup_cons, List.mem_map] at h
    rw [List.foldl_cons, ih _ h.2, mapGet_mapInsert, mapGet_cons]
    by_cases hk : a.1 = k
    · have hnone : mapGet t k = none := by
        refine mapGet_eq_none t k (fun p hp hpk => ?_)
        exact h.1 ⟨p, hp, hpk.trans hk.symm⟩
      rw [hnone, if_pos hk.symm, if_pos hk]
      simp
    · rw [if_neg (fun hh => hk hh.symm), if_neg hk]

/-- The label merge of `handleProwJob`, characterized by lookup. -/
theorem mapGet_mergedLabels (jobLabels : Option Labels) (eventLabels : Labels)
    (k : String) (h : (eventLabels.map Prod.fst).Nodup) :
    mapGet (mergedLabels jobLabels eventLabels) k =
      (mapGet eventLabels k).or (mapGet (jobLabels.getD []) k) :=
  mapGet_foldl_mapInsert eventLabels (jobLabels.getD []) k h

/-! ### Helper lemmas about the selection loop -/

/-- Running the selection loop with a job already found: any further
branch-eligible, same-named candidate is the ambiguity error; otherwise the
found job is returned. -/
theorem scanForJob_some (peName branch kind : String) (getName : α → String)
    (cr : α → String → Bool) (jobs : List α) (j : α) :
    scanForJob peName branch kind getName cr jobs (some j) =
      match jobs.filter (fun x => cr x branch && (getName x == peName)) with
      | [] => .ok j
      | _ :: _ => .error (peName ++ " matches multiple prow jobs") := by
  induction jobs with
  | nil => rfl
  | cons a t ih =>
    cases h1 : cr a branch with
    | false => simp [scanForJob, h1, List.filter_cons, ih]
    | true =>
      cases h2 : getName a == peName with
      | false => simp [scanForJob, h1, h2, List.filter_cons, ih]
      | true => simp [scanForJob, h1, h2, List.filter_cons]

/-- The selection loop, characterized by the branch-eligible, same-named
sublist: empty is the kind-specific not-found error, a singleton succeeds
with that job, two or more is the ambiguity error. -/
theorem scanForJob_none (peName branch kind : String) (getName : α → String)
    (cr : α → String → Bool) (jobs : List α) :
    scanForJob peName branch kind getName cr jobs none =
      match jobs.filter (fun x => cr x branch && (getName x == peName)) with
      | [] => .error ("failed to find associated " ++ kind ++ " job \"" ++ peName ++ "\"")
      | [x] => .ok x
      | _ :: _ :: _ => .error (peName ++ " matches multiple prow jobs") := by
  induction jobs with
  | nil => rfl
  | cons a t ih =>
    cases h1 : cr a branch with
    | false => simp [scanForJob, h1, List.filter_cons, ih]
    | true =>
      cases h2 : getName a == peName with
      | false => simp [scanForJob, h1, h2, List.filter_cons, ih]
      | true =>
        rw [scanForJob, if_pos h1]
        simp only [h2, if_true, List.filter_cons, h1, Bool.true_and]
        rw [scanForJob_some]
        cases h3 : t.filter (fun x => cr x branch && (getName x == peName)) with
        | nil => simp
        | cons b u => simp

/-- Converse of `length_beq_zero_eq_false`. -/
theorem ne_empty_of_length_beq_false (s : String)
    (h : (s.length == 0) = false) : s ≠ "" := by
  intro he
  subst he
  rw [show (("" : String).length == 0) = true from rfl] at h
  cases h

/-- A non-empty list fails the `len(l) == 0` test. -/
theorem list_length_beq_zero_eq_false (l : List α) (h : l ≠ []) :
    (l.length == 0) = false := by
  simp [List.length_eq_zero, h]

/-- Unfolding of the presubmit handler on an event whose refs pass all the
validation guards. -/
theorem presubmitGet_valid (cfg : ProwCfgClient) (g : Bool) (pe : ProwJobEvent)
    (refs : Refs) (hrefs : pe.refs = some refs)
    (h1 : refs.org ≠ "") (h2 : refs.repo ≠ "") (h3 : refs.pulls ≠ [])
    (h4 : refs.baseSHA ≠ "") (h5 : refs.baseRef ≠ "") :
    presubmitGetProwJobSpec cfg g pe =
      match scanForJob pe.name refs.baseRef "presubmit" Presubmit.name
          Presubmit.couldRun (presubmitCandidates cfg g refs) none with
      | .error e => .error e
      | .ok job => .ok (job.specFor refs, job.labels) := by
  unfold presubmitGetProwJobSpec
  rw [hrefs]
  simp only [length_beq_zero_eq_false _ h1, length_beq_zero_eq_false _ h2,
    list_length_beq_zero_eq_false _ h3, length_beq_zero_eq_false _ h4,
    length_beq_zero_eq_false _ h5, Bool.false_eq_true, if_false]

/-- Unfolding of the postsubmit handler on an event whose refs pass all the
validation guards; note that `refs.pulls` is not consulted by any guard. -/
theorem postsubmitGet_valid (cfg : ProwCfgClient) (g : Bool) (pe : ProwJobEvent)
    (refs : Refs) (hrefs : pe.refs = some refs)
    (h1 : refs.org ≠ "") (h2 : refs.repo ≠ "")
    (h4 : refs.baseSHA ≠ "") (h5 : refs.baseRef ≠ "") :
    postsubmitGetProwJobSpec cfg g pe =
      match scanForJob pe.name refs.baseRef "postsubmit" Postsubmit.name
          Postsubmit.couldRun (postsubmitCandidates cfg g refs) none with
      | .error e => .error e
      | .ok job => .ok (job.specFor refs, job.labels) := by
  unfold postsubmitGetProwJobSpec
  rw [hrefs]
  simp only [length_beq_zero_eq_false _ h1, length_beq_zero_eq_false _ h2,
    length_beq_zero_eq_false _ h4, length_beq_zero_eq_false _ h5,
    Bool.false_eq_true, if_false]

/-- A successful presubmit resolution implies every validation guard passed:
the refs are present with non-empty org, repo, baseSHA, baseRef and a
non-empty pull list. -/
theorem presubmitGet_ok_implies (cfg : ProwCfgClient) (g : Bool)
    (pe : ProwJobEvent) (v : ProwJobSpec × Option Labels)
    (h : presubmitGetProwJobSpec cfg g pe = .ok v) :
    ∃ refs, pe.refs = some refs ∧ refs.org ≠ "" ∧ refs.repo ≠ "" ∧
      refs.pulls ≠ [] ∧ refs.baseSHA ≠ "" ∧ refs.baseRef ≠ "" := by
  unfold presubmitGetProwJobSpec at h
  cases hrefs : pe.refs with
  | none => rw [hrefs] at h; simp at h
  | some refs =>
    rw [hrefs] at h
    simp only [] at h
    refine ⟨refs, rfl, ?_⟩
    split at h
    · simp at h
    · split at h
      · simp at h
      · split at h
        · simp at h
        · split at h
          · simp at h
          · split at h
            · simp at h
            · next hb5 =>
              next hb4 =>
              next hb3 =>
              next hb2 =>
              next hb1 =>
              exact ⟨ne_empty_of_length_beq_false _ (by simpa using hb1),
                ne_empty_of_length_beq_false _ (by simpa using hb2),
                fun he => hb3 (by simp [he]),
                ne_empty_of_length_beq_false _ (by simpa using hb4),
                ne_empty_of_length_beq_false _ (by simpa using hb5)⟩

/-- A successful postsubmit resolution implies every validation guard passed:
the refs are present with non-empty org, repo, baseSHA, baseRef. -/
theorem postsubmitGet_ok_implies (cfg : ProwCfgClient) (g : Bool)
    (pe : ProwJobEvent) (v : ProwJobSpec × Option Labels)
    (h : postsubmitGetProwJobSpec cfg g pe = .ok v) :
    ∃ refs, pe.refs = some refs ∧ refs.org ≠ "" ∧ refs.repo ≠ "" ∧
      refs.baseSHA ≠ "" ∧ refs.baseRef ≠ "" := by
  unfold postsubmitGetProwJobSpec at h
  cases hrefs : pe.refs with
  | none => rw [hrefs] at h; simp at h
  | some refs =>
    rw [hrefs] at h
    simp only [] at h
    refine ⟨refs, rfl, ?_⟩
    split at h
    · simp at h
    · split at h
      · simp at h
      · split at h
        · simp at h
        · split at h
          · simp at h
          · next hb4 =>
            next hb3 =>
            next hb2 =>
            next hb1 =>
            exact ⟨ne_empty_of_length_beq_false _ (by simpa using hb1),
              ne_empty_of_length_beq_false _ (by simpa using hb2),
              ne_empty_of_length_beq_false _ (by simpa using hb3),
              ne_empty_of_length_beq_false _ (by simpa using hb4)⟩

/-- Two nested filters are one filter by the conjunction. -/
theorem filter_filter_and (p q : α → Bool) (l : List α) :
    (l.filter p).filter q = l.filter (fun a => p a && q a) := by
  rw [List.filter_filter]
  exact List.filter_congr (fun a _ => Bool.and_comm _ _)

/-! ### Witness fixtures: a small concrete catalog and events -/

/-- A concrete presubmit job used in witnesses. -/
def jobHans : Presubmit :=
  { name := "hans", labels := some [("preL", "1")],
    couldRun := fun b => b == "main",
    specFor := fun _ => { cluster := "default", podSpec := none } }

/-- A concrete postsubmit job used in witnesses. -/
def jobKurt : Postsubmit :=
  { name := "kurt", labels := some [("postL", "2")],
    couldRun := fun b => b == "main",
    specFor := fun _ => { cluster := "default", podSpec := none } }

/-- A concrete periodic job used in witnesses. -/
def jobPeri : Periodic :=
  { name := "peri", labels := some [("periL", "3")],
    spec := { cluster := "default", podSpec := none } }

/-- A concrete configuration: one static job of each kind, dynamic fetches
failing. -/
def cfgW : ProwCfgClient :=
  { allPeriodics := [jobPeri],
    getPresubmitsStatic := fun _ => [jobHans],
    getPresubmits := fun _ _ _ => .error "inrepoconfig fetch failed",
    getPostsubmitsStatic := fun _ => [jobKurt],
    getPostsubmits := fun _ _ => .error "inrepoconfig fetch failed" }

/-- Like `cfgW` but with succeeding, different dynamic fetchers (same
periodic catalog). -/
def cfgW2 : ProwCfgClient :=
  { allPeriodics := [jobPeri],
    getPresubmitsStatic := fun _ => [],
    getPresubmits := fun _ _ _ => .ok [jobHans, jobHans],
    getPostsubmitsStatic := fun _ => [],
    getPostsubmits := fun _ _ => .ok [jobKurt, jobKurt] }

/-- Concrete valid refs used in witnesses. -/
def refsW : Refs :=
  { org := "o", repo := "r", baseRef := "main", baseSHA := "abc",
    pulls := [{ sha := "def" }] }

/-- A concrete presubmit event for job `hans`. -/
def peHans : ProwJobEvent :=
  { name := "hans", refs := some refsW, envs := [], labels := [],
    annotations := [] }

/-- A concrete postsubmit event for job `kurt` (no pulls). -/
def peKurt : ProwJobEvent :=
  { name := "kurt",
    refs := some { org := "o", repo := "r", baseRef := "main",
                   baseSHA := "abc", pulls := [] },
    envs := [], labels := [], annotations := [] }

/-! ### The claims -/

/-- C1: for presubmit and postsubmit events with valid refs, resolution
first restricts the candidates to the branch-eligible jobs (`CouldRun` on
the event's base branch) and then looks at those whose name equals the
event's name: zero yields the not-found error naming the requested job, two
or more yields the ambiguity error naming the job, and exactly one returns
that job's spec together with its labels. -/
theorem c1_branch_filter_then_unique_name (cfg : ProwCfgClient) (g : Bool)
    (pe : ProwJobEvent) (refs : Refs) (hrefs : pe.refs = some refs)
    (h1 : refs.org ≠ "") (h2 : refs.repo ≠ "")
    (h4 : refs.baseSHA ≠ "") (h5 : refs.baseRef ≠ "") :
    (refs.pulls ≠ [] →
      (((presubmitCandidates cfg g refs).filter
            (fun j => j.couldRun refs.baseRef)).filter
            (fun j => j.name == pe.name) = [] →
        presubmitGetProwJobSpec cfg g pe =
          .error ("failed to find associated presubmit job \"" ++ pe.name ++ "\"")) ∧
      (∀ j, ((presubmitCandidates cfg g refs).filter
            (fun j => j.couldRun refs.baseRef)).filter
            (fun j => j.name == pe.name) = [j] →
        presubmitGetProwJobSpec cfg g pe = .ok (j.specFor refs, j.labels)) ∧
      (2 ≤ (((presubmitCandidates cfg g refs).filter
            (fun j => j.couldRun refs.baseRef)).filter
            (fun j => j.name == pe.name)).length →
        presubmitGetProwJobSpec cfg g pe =
          .error (pe.name ++ " matches multiple prow jobs")))
    ∧ ((((postsubmitCandidates cfg g refs).filter
            (fun j => j.couldRun refs.baseRef)).filter
            (fun j => j.name == pe.name) = [] →
        postsubmitGetProwJobSpec cfg g pe =
          .error ("failed to find associated postsubmit job \"" ++ pe.name ++ "\"")) ∧
      (∀ j, ((postsubmitCandidates cfg g refs).filter
            (fun j => j.couldRun refs.baseRef)).filter
            (fun j => j.name == pe.name) = [j] →
        postsubmitGetProwJobSpec cfg g pe = .ok (j.specFor refs, j.labels)) ∧
      (2 ≤ (((postsubmitCandidates cfg g refs).filter
            (fun j => j.couldRun refs.baseRef)).filter
            (fun j => j.name == pe.name)).length →
        postsubmitGetProwJobSpec cfg g pe =
          .error (pe.name ++ " matches multiple prow jobs"))) := by
  constructor
  · intro h3
    have key := presubmitGet_valid cfg g pe refs hrefs h1 h2 h3 h4 h5
    rw [scanForJob_none] at key
    rw [filter_filter_and]
    refine ⟨fun hnil => ?_, fun j hone => ?_, fun hlen => ?_⟩
    · rw [key, hnil]; rfl
    · rw [key, hone]
    · cases hfl : (presubmitCandidates cfg g refs).filter
          (fun x => x.couldRun refs.baseRef && (x.name == pe.name)) with
      | nil => rw [hfl] at hlen; simp at hlen
      | cons a u =>
        cases u with
        | nil => rw [hfl] at hlen; simp at hlen
        | cons b r => rw [key, hfl]
  · have key := postsubmitGet_valid cfg g pe refs hrefs h1 h2 h4 h5
    rw [scanForJob_none] at key
    rw [filter_filter_and]
    refine ⟨fun hnil => ?_, fun j hone => ?_, fun hlen => ?_⟩
    · rw [key, hnil]; rfl
    · rw [key, hone]
    · cases hfl : (postsubmitCandidates cfg g refs).filter
          (fun x => x.couldRun refs.baseRef && (x.name == pe.name)) with
      | nil => rw [hfl] at hlen; simp at hlen
      | cons a u =>
        cases u with
        | nil => rw [hfl] at hlen; simp at hlen
        | cons b r => rw [key, hfl]

/-- C1 witness: on the concrete catalog `cfgW` (one branch-eligible job
named `hans`), the presubmit event `peHans` resolves to that job's spec and
labels. -/
theorem c1_witness :
    presubmitGetProwJobSpec cfgW true peHans =
      .ok ({ cluster := "default", podSpec := none }, some [("preL", "1")]) := by
  have h := c1_branch_filter_then_unique_name cfgW true peHans refsW rfl
    (by decide) (by decide) (by decide) (by decide)
  exact (h.1 (by decide)).2.1 jobHans rfl

/-- C9: periodic resolution scans only the static periodic catalog by exact
name, with no branch filtering; when no periodic job has the event's name it
returns exactly the not-found error naming the requested job — never any
other outcome. -/
theorem c9_periodic_not_found (cfg : ProwCfgClient) (pe : ProwJobEvent)
    (h : ∀ job ∈ cfg.allPeriodics, job.name ≠ pe.name) :
    periodicGetProwJobSpec cfg pe =
      .error ("failed to find associated periodic job \"" ++ pe.name ++ "\"") := by
  unfold periodicGetProwJobSpec
  rw [List.find?_eq_none.mpr (fun job hj => by simp [h job hj])]

/-- C9 witness: a periodic event naming a job absent from `cfgW`'s static
catalog fails with the not-found error. -/
theorem c9_witness :
    periodicGetProwJobSpec cfgW
        { name := "nosuch", refs := none, envs := [], labels := [],
          annotations := [] } =
      .error ("failed to find associated periodic job \"" ++ "nosuch" ++ "\"") :=
  c9_periodic_not_found cfgW _ (by decide)

/-- C10: the periodic resolver's result depends only on the event name and
the static periodic catalog — two events equal in name but arbitrary in
refs, envs, labels and annotations, resolved against two configurations
that agree on the periodic catalog (but may differ in static or dynamic
presubmit/postsubmit sources, i.e. in any checkout collaborator), produce
identical results. -/
theorem c10_periodic_noninterference (cfg1 cfg2 : ProwCfgClient)
    (pe1 pe2 : ProwJobEvent) (hcat : cfg1.allPeriodics = cfg2.allPeriodics)
    (hname : pe1.name = pe2.name) :
    periodicGetProwJobSpec cfg1 pe1 = periodicGetProwJobSpec cfg2 pe2 := by
  unfold periodicGetProwJobSpec
  rw [hcat, hname]

/-- C10 witness: two periodic events for `peri` differing in refs, envs,
labels and annotations, against `cfgW` and `cfgW2` (different dynamic
catalogs, same periodic catalog), resolve identically. -/
theorem c10_witness :
    periodicGetProwJobSpec cfgW
        { name := "peri", refs := some refsW, envs := [("e", "1")],
          labels := [("l", "2")], annotations := [("a", "3")] } =
      periodicGetProwJobSpec cfgW2
        { name := "peri", refs := none, envs := [], labels := [],
          annotations := [] } :=
  c10_periodic_noninterference cfgW cfgW2 _ _ rfl rfl

/-- C6: presubmit resolution errors whenever refs is absent or org, repo,
baseSHA or baseRef is empty or the pulls sequence is empty; postsubmit
resolution errors whenever refs is absent or org, repo, baseSHA or baseRef
is empty, and puts no requirement on pulls: with those four fields
non-empty it proceeds directly to candidate selection whatever `pulls` is. -/
theorem c6_refs_validation (cfg : ProwCfgClient) (g : Bool) (pe : ProwJobEvent) :
    ((pe.refs = none ∨ ∃ refs, pe.refs = some refs ∧
        (refs.org = "" ∨ refs.repo = "" ∨ refs.baseSHA = "" ∨
         refs.baseRef = "" ∨ refs.pulls = [])) →
      ∃ e, presubmitGetProwJobSpec cfg g pe = .error e)
    ∧ ((pe.refs = none ∨ ∃ refs, pe.refs = some refs ∧
        (refs.org = "" ∨ refs.repo = "" ∨ refs.baseSHA = "" ∨
         refs.baseRef = "")) →
      ∃ e, postsubmitGetProwJobSpec cfg g pe = .error e)
    ∧ (∀ refs, pe.refs = some refs → refs.org ≠ "" → refs.repo ≠ "" →
        refs.baseSHA ≠ "" → refs.baseRef ≠ "" →
        postsubmitGetProwJobSpec cfg g pe =
          match scanForJob pe.name refs.baseRef "postsubmit" Postsubmit.name
              Postsubmit.couldRun (postsubmitCandidates cfg g refs) none with
          | .error e => .error e
          | .ok job => .ok (job.specFor refs, job.labels)) := by
  refine ⟨fun hbad => ?_, fun hbad => ?_,
    fun refs hrefs h1 h2 h4 h5 => postsubmitGet_valid cfg g pe refs hrefs h1 h2 h4 h5⟩
  · cases hres : presubmitGetProwJobSpec cfg g pe with
    | error e => exact ⟨e, rfl⟩
    | ok v =>
      exfalso
      obtain ⟨refs', hr', ho, hrp, hp, hs, hb⟩ :=
        presubmitGet_ok_implies cfg g pe v hres
      rcases hbad with hnone | ⟨refs, hrefs, hbad⟩
      · rw [hnone] at hr'; cases hr'
      · rw [hrefs] at hr'
        cases hr'
        rcases hbad with h | h | h | h | h
        · exact ho h
        · exact hrp h
        · exact hs h
        · exact hb h
        · exact hp h
  · cases hres : postsubmitGetProwJobSpec cfg g pe with
    | error e => exact ⟨e, rfl⟩
    | ok v =>
      exfalso
      obtain ⟨refs', hr', ho, hrp, hs, hb⟩ :=
        postsubmitGet_ok_implies cfg g pe v hres
      rcases hbad with hnone | ⟨refs, hrefs, hbad⟩
      · rw [hnone] at hr'; cases hr'
      · rw [hrefs] at hr'
        cases hr'
        rcases hbad with h | h | h | h
        · exact ho h
        · exact hrp h
        · exact hs h
        · exact hb h

/-- C6 witness: a presubmit event with empty pulls errors, and the
postsubmit event `peKurt` — also with empty pulls — resolves successfully
through selection. -/
theorem c6_witness :
    (∃ e, presubmitGetProwJobSpec cfgW true
        { peHans with refs := some { refsW with pulls := [] } } = .error e)
    ∧ postsubmitGetProwJobSpec cfgW true peKurt =
        .ok ({ cluster := "default", podSpec := none }, some [("postL", "2")]) := by
  constructor
  · exact (c6_refs_validation cfgW true _).1
      (Or.inr ⟨{ refsW with pulls := [] }, rfl, by simp [refsW]⟩)
  · rw [(c6_refs_validation cfgW true peKurt).2.2
      { org := "o", repo := "r", baseRef := "main", baseSHA := "abc", pulls := [] }
      rfl (by decide) (by decide) (by decide) (by decide)]
    rfl

/-- C5: with a git client configured, a failing dynamic (inrepoconfig)
fetch falls back to the static catalog — the candidate list equals the
static list and the handler behaves exactly as if no git client were
configured — while a succeeding dynamic fetch entirely replaces the static
candidate list with the fetched one. -/
theorem c5_dynamic_fallback (cfg : ProwCfgClient) (refs : Refs) :
    ((∃ e, cfg.getPresubmits (orgRepoOf refs) refs.baseSHA
        (refs.pulls.map Pull.sha) = .error e) →
      presubmitCandidates cfg true refs =
        cfg.getPresubmitsStatic (orgRepoOf refs) ∧
      ∀ pe : ProwJobEvent, pe.refs = some refs →
        presubmitGetProwJobSpec cfg true pe = presubmitGetProwJobSpec cfg false pe)
    ∧ (∀ dyn, cfg.getPresubmits (orgRepoOf refs) refs.baseSHA
        (refs.pulls.map Pull.sha) = .ok dyn →
      presubmitCandidates cfg true refs = dyn)
    ∧ ((∃ e, cfg.getPostsubmits (orgRepoOf refs) refs.baseSHA = .error e) →
      postsubmitCandidates cfg true refs =
        cfg.getPostsubmitsStatic (orgRepoOf refs) ∧
      ∀ pe : ProwJobEvent, pe.refs = some refs →
        postsubmitGetProwJobSpec cfg true pe = postsubmitGetProwJobSpec cfg false pe)
    ∧ (∀ dyn, cfg.getPostsubmits (orgRepoOf refs) refs.baseSHA = .ok dyn →
      postsubmitCandidates cfg true refs = dyn) := by
  have hfalsePre : presubmitCandidates cfg false refs =
      cfg.getPresubmitsStatic (orgRepoOf refs) := rfl
  have hfalsePost : postsubmitCandidates cfg false refs =
      cfg.getPostsubmitsStatic (orgRepoOf refs) := rfl
  refine ⟨fun ⟨e, he⟩ => ⟨?_, ?_⟩, fun dyn hd => ?_,
    fun ⟨e, he⟩ => ⟨?_, ?_⟩, fun dyn hd => ?_⟩
  · simp [presubmitCandidates, he]
  · intro pe hrefs
    have hc : presubmitCandidates cfg true refs = presubmitCandidates cfg false refs := by
      simp [presubmitCandidates, he]
    unfold presubmitGetProwJobSpec
    rw [hrefs]
    simp only [hc]
  · simp [presubmitCandidates, hd]
  · simp [postsubmitCandidates, he]
  · intro pe hrefs
    have hc : postsubmitCandidates cfg true refs = postsubmitCandidates cfg false refs := by
      simp [postsubmitCandidates, he]
    unfold postsubmitGetProwJobSpec
    rw [hrefs]
    simp only [hc]
  · simp [postsubmitCandidates, hd]

/-- C5 witness: on `cfgW` (dynamic fetch fails) the candidates are the
static list, and on `cfgW2` (dynamic fetch succeeds) the candidates are the
fetched list replacing the static one. -/
theorem c5_witness :
    presubmitCandidates cfgW true refsW = [jobHans] ∧
    presubmitGetProwJobSpec cfgW true peHans = presubmitGetProwJobSpec cfgW false peHans ∧
    presubmitCandidates cfgW2 true refsW = [jobHans, jobHans] := by
  refine ⟨?_, ?_, ?_⟩
  · exact ((c5_dynamic_fallback cfgW refsW).1 ⟨_, rfl⟩).1
  · exact ((c5_dynamic_fallback cfgW refsW).1 ⟨_, rfl⟩).2 peHans rfl
  · exact (c5_dynamic_fallback cfgW2 refsW).2.1 [jobHans, jobHans] rfl

/-! ### Unfolding lemmas for the dispatch step -/

/-- `reportProwJob` always produces exactly one report-call record: the job
with its status set from the state and error. -/
theorem reportProwJob_calls (r : Reporter) (pj : ProwJob) (st : ProwJobState)
    (err : Option String) :
    (reportProwJob r pj st err).1 =
      [{ pj with status := { state := st, description :=
          match err with
          | none => "Successfully triggered prowjob."
          | some e => "Failed creating prowjob: " ++ e } }] := by
  rfl

/-- A report record only enters the `reported` trace when `ShouldReport`
holds of it, and it is paired with the success of the `Report` call. -/
theorem reportProwJob_reported (r : Reporter) (pj : ProwJob) (st : ProwJobState)
    (err : Option String) (q : ProwJob × Bool)
    (h : q ∈ (reportProwJob r pj st err).2) :
    r.shouldReport q.1 = true ∧ q.2 = !(r.reportFails q.1) := by
  unfold reportProwJob at h
  dsimp only at h
  split at h
  · next hs =>
    simp only [List.mem_singleton] at h
    subst h
    exact ⟨hs, rfl⟩
  · next => cases h

/-- `handleProwJob` when resolution fails: the error is returned, nothing is
submitted, and the minimal failed record (empty spec, event annotations) is
report-called as errored. -/
theorem handleProwJob_resolveError (reporter : Reporter) (backend : Backend)
    (resolve : ProwJobEvent → Except String (ProwJobSpec × Option Labels))
    (pe : ProwJobEvent) (allowedClusters : List String) (err : String)
    (hres : resolve pe = .error err) :
    handleProwJob reporter backend resolve (.ok pe) allowedClusters =
      (.error err,
       { resolves := [pe], created := [],
         reportCalls := (reportProwJob reporter
           (newProwJob emptyProwJobSpec none pe.annotations) .errorState (some err)).1,
         reported := (reportProwJob reporter
           (newProwJob emptyProwJobSpec none pe.annotations) .errorState (some err)).2 }) := by
  simp only [handleProwJob, hres]

/-- `handleProwJob` when resolution succeeds but the cluster is rejected:
the descriptive error is returned, nothing is submitted, and the record
built from the resolved spec (cluster unchanged, nil labels, event
annotations) is report-called as errored. -/
theorem handleProwJob_rejected (reporter : Reporter) (backend : Backend)
    (resolve : ProwJobEvent → Except String (ProwJobSpec × Option Labels))
    (pe : ProwJobEvent) (allowedClusters : List String)
    (spec : ProwJobSpec) (labels : Option Labels)
    (hres : resolve pe = .ok (spec, labels))
    (hca : clusterAllowed allowedClusters spec.cluster = false) :
    handleProwJob reporter backend resolve (.ok pe) allowedClusters =
      (.error (clusterNotAllowedMsg spec.cluster),
       { resolves := [pe], created := [],
         reportCalls := (reportProwJob reporter
           (newProwJob spec none pe.annotations) .errorState
           (some (clusterNotAllowedMsg spec.cluster))).1,
         reported := (reportProwJob reporter
           (newProwJob spec none pe.annotations) .errorState
           (some (clusterNotAllowedMsg spec.cluster))).2 }) := by
  simp only [handleProwJob, hres, hca, Bool.not_false, if_true]

/-- `handleProwJob` when resolution succeeds and the cluster is admitted:
the merged-label, env-extended record is submitted; on submission failure
the error is returned and the record report-called as errored, on success
`nil` is returned and the record report-called as triggered. -/
theorem handleProwJob_admitted (reporter : Reporter) (backend : Backend)
    (resolve : ProwJobEvent → Except String (ProwJobSpec × Option Labels))
    (pe : ProwJobEvent) (allowedClusters : List String)
    (spec : ProwJobSpec) (labels : Option Labels) (pj : ProwJob)
    (hres : resolve pe = .ok (spec, labels))
    (hca : clusterAllowed allowedClusters spec.cluster = true)
    (hpj : pj = addEnvs
      (newProwJob spec (some (mergedLabels labels pe.labels)) pe.annotations)
      pe.envs) :
    handleProwJob reporter backend resolve (.ok pe) allowedClusters =
      match backend.createErr pj with
      | some e =>
          (.error e,
           { resolves := [pe], created := [pj],
             reportCalls := (reportProwJob reporter pj .errorState (some e)).1,
             reported := (reportProwJob reporter pj .errorState (some e)).2 })
      | none =>
          (.ok (),
           { resolves := [pe], created := [pj],
             reportCalls := (reportProwJob reporter pj .triggered none).1,
             reported := (reportProwJob reporter pj .triggered none).2 }) := by
  subst hpj
  simp only [handleProwJob, hres, hca, Bool.not_true, Bool.false_eq_true,
    if_false]

/-- `addEnvs` does not change the labels. -/
theorem addEnvs_labels (pj : ProwJob) (envs : Labels) :
    (addEnvs pj envs).labels = pj.labels := by
  unfold addEnvs
  split <;> rfl

/-- `addEnvs` does not change the annotations. -/
theorem addEnvs_annotations (pj : ProwJob) (envs : Labels) :
    (addEnvs pj envs).annotations = pj.annotations := by
  unfold addEnvs
  split <;> rfl

/-- `addEnvs` does not change the cluster. -/
theorem addEnvs_spec_cluster (pj : ProwJob) (envs : Labels) :
    (addEnvs pj envs).spec.cluster = pj.spec.cluster := by
  unfold addEnvs
  split <;> rfl

/-- `addEnvs` appends every entry to the environment of every container. -/
theorem addEnvs_podSpec (pj : ProwJob) (envs : Labels) :
    (addEnvs pj envs).spec.podSpec = pj.spec.podSpec.map (fun ps =>
      { containers := ps.containers.map (fun c =>
          { env := c.env ++ envs.map (fun kv => ⟨kv.1, kv.2⟩) }) }) := by
  unfold addEnvs
  cases h : pj.spec.podSpec with
  | none => simp [h]
  | some ps => simp [h]

/-- A reporter that always wants to report and always succeeds. -/
def reporterW : Reporter :=
  { shouldReport := fun _ => true, reportFails := fun _ => false }

/-- A reporter that never wants to report and whose reports would fail. -/
def reporterQuiet : Reporter :=
  { shouldReport := fun _ => false, reportFails := fun _ => true }

/-- A backend whose `Create` always succeeds. -/
def backendW : Backend :=
  { createErr := fun _ => none }

/-- C2: dispatch admits a resolved spec exactly when the allow-list holds an
entry equal to its cluster or the wildcard `"*"`; on rejection it builds a
record from the resolved spec (cluster unchanged, nil labels, event
annotations), report-calls it as errored, submits nothing, and returns the
error naming the offending cluster. -/
theorem c2_cluster_admission (reporter : Reporter) (backend : Backend)
    (resolve : ProwJobEvent → Except String (ProwJobSpec × Option Labels))
    (pe : ProwJobEvent) (allowedClusters : List String)
    (spec : ProwJobSpec) (labels : Option Labels)
    (hres : resolve pe = .ok (spec, labels)) :
    (clusterAllowed allowedClusters spec.cluster = true ↔
      "*" ∈ allowedClusters ∨ spec.cluster ∈ allowedClusters)
    ∧ ((handleProwJob reporter backend resolve (.ok pe) allowedClusters).2.created ≠ []
        ↔ clusterAllowed allowedClusters spec.cluster = true)
    ∧ (clusterAllowed allowedClusters spec.cluster = false →
        (handleProwJob reporter backend resolve (.ok pe) allowedClusters).1 =
          .error (clusterNotAllowedMsg spec.cluster) ∧
        (handleProwJob reporter backend resolve (.ok pe) allowedClusters).2.reportCalls =
          [{ spec := spec, labels := none, annotations := pe.annotations,
             status := ⟨.errorState, "Failed creating prowjob: " ++ clusterNotAllowedMsg spec.cluster⟩ }]) := by
  have hiff : clusterAllowed allowedClusters spec.cluster = true ↔
      "*" ∈ allowedClusters ∨ spec.cluster ∈ allowedClusters := by
    simp only [clusterAllowed, List.any_eq_true, Bool.or_eq_true, beq_iff_eq]
    constructor
    · rintro ⟨a, ha, rfl | rfl⟩
      · exact Or.inl ha
      · exact Or.inr ha
    · rintro (h | h)
      · exact ⟨"*", h, Or.inl rfl⟩
      · exact ⟨spec.cluster, h, Or.inr rfl⟩
  refine ⟨hiff, ?_, fun hca => ?_⟩
  · cases hca : clusterAllowed allowedClusters spec.cluster with
    | false =>
      rw [handleProwJob_rejected reporter backend resolve pe allowedClusters
        spec labels hres hca]
      simp
    | true =>
      rw [handleProwJob_admitted reporter backend resolve pe allowedClusters
        spec labels _ hres hca rfl]
      cases backend.createErr (addEnvs
          (newProwJob spec (some (mergedLabels labels pe.labels)) pe.annotations)
          pe.envs) with
      | some e => simp
      | none => simp
  · rw [handleProwJob_rejected reporter backend resolve pe allowedClusters
      spec labels hres hca]
    refine ⟨rfl, ?_⟩
    rw [reportProwJob_calls]
    rfl

/-- C2 witness: a spec on cluster `other` against allow-list `["trusted"]`
is rejected with the error naming `other`. -/
theorem c2_witness :
    (handleProwJob reporterW backendW
        (fun _ => .ok ({ cluster := "other", podSpec := none }, none))
        (.ok peHans) ["trusted"]).1 =
      .error (clusterNotAllowedMsg "other") :=
  ((c2_cluster_admission reporterW backendW
      (fun _ => .ok ({ cluster := "other", podSpec := none }, none))
      peHans ["trusted"] { cluster := "other", podSpec := none } none rfl).2.2
    (by decide)).1

/-- C3: every job record submitted to the backend has an admitted cluster —
no record reaches `ProwJobClient.Create` with a cluster outside the
allow-list. -/
theorem c3_no_submission_without_admission (reporter : Reporter)
    (backend : Backend)
    (resolve : ProwJobEvent → Except String (ProwJobSpec × Option Labels))
    (payload : Except String ProwJobEvent) (allowedClusters : List String)
    (pj : ProwJob)
    (hmem : pj ∈ (handleProwJob reporter backend resolve payload
      allowedClusters).2.created) :
    clusterAllowed allowedClusters pj.spec.cluster = true := by
  cases payload with
  | error e => simp [handleProwJob, Trace.empty] at hmem
  | ok pe =>
    cases hres : resolve pe with
    | error err =>
      rw [handleProwJob_resolveError reporter backend resolve pe allowedClusters
        err hres] at hmem
      cases hmem
    | ok v =>
      obtain ⟨spec, labels⟩ := v
      cases hca : clusterAllowed allowedClusters spec.cluster with
      | false =>
        rw [handleProwJob_rejected reporter backend resolve pe allowedClusters
          spec labels hres hca] at hmem
        cases hmem
      | true =>
        rw [handleProwJob_admitted reporter backend resolve pe allowedClusters
          spec labels _ hres hca rfl] at hmem
        cases hce : backend.createErr (addEnvs
            (newProwJob spec (some (mergedLabels labels pe.labels)) pe.annotations)
            pe.envs) with
        | some e =>
          rw [hce] at hmem
          simp only [List.mem_singleton] at hmem
          subst hmem
          rw [addEnvs_spec_cluster]
          exact hca
        | none =>
          rw [hce] at hmem
          simp only [List.mem_singleton] at hmem
          subst hmem
          rw [addEnvs_spec_cluster]
          exact hca

/-- C3 witness: the record submitted for `peHans` under allow-list `["*"]`
carries an admitted cluster. -/
theorem c3_witness :
    clusterAllowed ["*"]
      ((addEnvs (newProwJob { cluster := "default", podSpec := none }
          (some (mergedLabels (some [("preL", "1")]) [])) []) []).spec.cluster) =
      true :=
  c3_no_submission_without_admission reporterW backendW
    (presubmitGetProwJobSpec cfgW true) (.ok peHans) ["*"] _ (by
      have hcr : (handleProwJob reporterW backendW (presubmitGetProwJobSpec cfgW true)
          (.ok peHans) ["*"]).2.created =
        [addEnvs (newProwJob { cluster := "default", podSpec := none }
          (some (mergedLabels (some [("preL", "1")]) [])) []) []] := rfl
      rw [hcr]
      exact List.mem_singleton.mpr rfl)

/-- C7: on an admitted dispatch exactly one record is submitted; its labels
are the job definition's labels merged with the event's labels with the
event's value winning on key collision (characterized by lookup), its
annotations are the event's, its cluster is the resolved cluster, and every
event environment entry is appended to the environment list of every
container of the pod template. -/
theorem c7_label_merge_and_env_append (reporter : Reporter) (backend : Backend)
    (resolve : ProwJobEvent → Except String (ProwJobSpec × Option Labels))
    (pe : ProwJobEvent) (allowedClusters : List String)
    (spec : ProwJobSpec) (labels : Option Labels)
    (hres : resolve pe = .ok (spec, labels))
    (hca : clusterAllowed allowedClusters spec.cluster = true)
    (hnodup : (pe.labels.map Prod.fst).Nodup) :
    ∃ pj, (handleProwJob reporter backend resolve (.ok pe)
        allowedClusters).2.created = [pj]
      ∧ pj.labels = some (mergedLabels labels pe.labels)
      ∧ (∀ k, mapGet (mergedLabels labels pe.labels) k =
          (mapGet pe.labels k).or (mapGet (labels.getD []) k))
      ∧ pj.annotations = pe.annotations
      ∧ pj.spec.cluster = spec.cluster
      ∧ pj.spec.podSpec = spec.podSpec.map (fun ps =>
          { containers := ps.containers.map (fun c =>
              { env := c.env ++ pe.envs.map (fun kv => ⟨kv.1, kv.2⟩) }) }) := by
  refine ⟨addEnvs (newProwJob spec (some (mergedLabels labels pe.labels))
      pe.annotations) pe.envs, ?_, ?_, ?_, ?_, ?_, ?_⟩
  · rw [handleProwJob_admitted reporter backend resolve pe allowedClusters
      spec labels _ hres hca rfl]
    cases backend.createErr (addEnvs
        (newProwJob spec (some (mergedLabels labels pe.labels)) pe.annotations)
        pe.envs) with
    | some e => rfl
    | none => rfl
  · rw [addEnvs_labels]
    rfl
  · exact fun k => mapGet_mergedLabels labels pe.labels k hnodup
  · rw [addEnvs_annotations]
    rfl
  · rw [addEnvs_spec_cluster]
    rfl
  · rw [addEnvs_podSpec]
    rfl

/-- A spec with one container, used by the C7 witness. -/
def specEnvW : ProwJobSpec :=
  ⟨"default", some ⟨[⟨[⟨"E0", "v0"⟩]⟩]⟩⟩

/-- An event with one env entry and one label, used by the C7 witness. -/
def peC7 : ProwJobEvent :=
  { name := "x", refs := none, envs := [("E1", "w")],
    labels := [("b", "3")], annotations := [("anno", "y")] }

/-- C7 witness: with job labels `a=1, b=2` and event label `b=3`, the merged
lookup of `b` is the event's value over the job's. -/
theorem c7_witness :
    mapGet (mergedLabels (some [("a", "1"), ("b", "2")]) [("b", "3")]) "b" =
      (mapGet [("b", "3")] "b").or (mapGet [("a", "1"), ("b", "2")] "b") := by
  obtain ⟨pj, h1, h2, h3, h4, h5, h6⟩ :=
    c7_label_merge_and_env_append reporterW backendW
      (fun _ => .ok (specEnvW, some [("a", "1"), ("b", "2")]))
      peC7 ["*"] specEnvW (some [("a", "1"), ("b", "2")])
      rfl (by decide) (by decide)
  exact h3 "b"

/-- C8: the dispatch result is the same for any two reporters — whatever
their should-report predicate says and whether their report call fails —
and a record only enters the reported trace when the should-report
predicate holds of it. -/
theorem c8_reporting_best_effort (r1 r2 : Reporter) (backend : Backend)
    (resolve : ProwJobEvent → Except String (ProwJobSpec × Option Labels))
    (payload : Except String ProwJobEvent) (allowedClusters : List String) :
    (handleProwJob r1 backend resolve payload allowedClusters).1 =
      (handleProwJob r2 backend resolve payload allowedClusters).1
    ∧ ∀ q ∈ (handleProwJob r1 backend resolve payload allowedClusters).2.reported,
        r1.shouldReport q.1 = true := by
  constructor
  · cases payload with
    | error e => rfl
    | ok pe =>
      cases hres : resolve pe with
      | error err =>
        rw [handleProwJob_resolveError r1 backend resolve pe allowedClusters err hres,
          handleProwJob_resolveError r2 backend resolve pe allowedClusters err hres]
      | ok v =>
        obtain ⟨spec, labels⟩ := v
        cases hca : clusterAllowed allowedClusters spec.cluster with
        | false =>
          rw [handleProwJob_rejected r1 backend resolve pe allowedClusters
            spec labels hres hca,
            handleProwJob_rejected r2 backend resolve pe allowedClusters
            spec labels hres hca]
        | true =>
          rw [handleProwJob_admitted r1 backend resolve pe allowedClusters
            spec labels _ hres hca rfl,
            handleProwJob_admitted r2 backend resolve pe allowedClusters
            spec labels _ hres hca rfl]
          cases backend.createErr (addEnvs
              (newProwJob spec (some (mergedLabels labels pe.labels)) pe.annotations)
              pe.envs) with
          | some e => rfl
          | none => rfl
  · intro q hq
    cases payload with
    | error e => simp [handleProwJob, Trace.empty] at hq
    | ok pe =>
      cases hres : resolve pe with
      | error err =>
        rw [handleProwJob_resolveError r1 backend resolve pe allowedClusters
          err hres] at hq
        dsimp only at hq
        exact (reportProwJob_reported r1 _ _ _ q hq).1
      | ok v =>
        obtain ⟨spec, labels⟩ := v
        cases hca : clusterAllowed allowedClusters spec.cluster with
        | false =>
          rw [handleProwJob_rejected r1 backend resolve pe allowedClusters
            spec labels hres hca] at hq
          dsimp only at hq
          exact (reportProwJob_reported r1 _ _ _ q hq).1
        | true =>
          rw [handleProwJob_admitted r1 backend resolve pe allowedClusters
            spec labels _ hres hca rfl] at hq
          cases hce : backend.createErr (addEnvs
              (newProwJob spec (some (mergedLabels labels pe.labels)) pe.annotations)
              pe.envs) with
          | some e =>
            rw [hce] at hq
            dsimp only at hq
            exact (reportProwJob_reported r1 _ _ _ q hq).1
          | none =>
            rw [hce] at hq
            dsimp only at hq
            exact (reportProwJob_reported r1 _ _ _ q hq).1

/-- The failed record reported when `peHans` cannot be resolved as a
periodic job (used by the C8 witness). -/
def pjNotFoundW : ProwJob :=
  { spec := emptyProwJobSpec, labels := none, annotations := [],
    status := ⟨.errorState, "Failed creating prowjob: failed to find associated periodic job \"hans\""⟩ }

/-- C8 witness: an always-reporting, never-failing reporter and a silent,
always-failing reporter yield the same dispatch result, and the reported
record satisfied the predicate. -/
theorem c8_witness :
    (handleProwJob reporterW backendW (periodicGetProwJobSpec cfgW)
        (.ok peHans) ["*"]).1 =
      (handleProwJob reporterQuiet backendW (periodicGetProwJobSpec cfgW)
        (.ok peHans) ["*"]).1
    ∧ reporterW.shouldReport pjNotFoundW = true := by
  have h := c8_reporting_best_effort reporterW reporterQuiet backendW
    (periodicGetProwJobSpec cfgW) (.ok peHans) ["*"]
  have hrep : (handleProwJob reporterW backendW (periodicGetProwJobSpec cfgW)
      (.ok peHans) ["*"]).2.reported = [(pjNotFoundW, true)] := rfl
  exact ⟨h.1, h.2 (pjNotFoundW, true) (by rw [hrep]; exact List.mem_singleton.mpr rfl)⟩

/-- The subscriber model used by the C4 evaluation. -/
def sW : SubscriberModel :=
  { cfg := cfgW, hasGitClient := true, reporter := reporterW,
    backend := backendW }

/-- C4: a message whose attributes lack the event-type key, or carry an
unrecognized value, is terminal: an error is returned (so the message is
nacked) and no resolution, submission or report is attempted — but, against
the claim, the per-subscription error counter is NOT incremented: the
source calls `ErrorCounter.With(...)` without `.Inc()`, so the count stays
zero. -/
theorem c4_classification_terminal_but_counter_not_incremented :
    (handleMessage sW { attributes := [], payload := .ok peHans } "sub" ["*"] =
      (.error ("unable to find \"" ++ prowEventType ++ "\" from the attributes"),
       Trace.empty, { messageCount := 1, errorCount := 0 }))
    ∧ (handleMessage sW
        { attributes := [(prowEventType, "bogus")], payload := .ok peHans }
        "sub" ["*"] =
      (.error ("unsupported event type: " ++ "bogus"),
       Trace.empty, { messageCount := 1, errorCount := 0 })) :=
  ⟨rfl, rfl⟩

end PubSub
